import Mathlib

/-!
Shallow embedding of the ingestion-and-buffering pipeline of the
`data_saving_python` repository (files `mqtthandler.py`, `publish.py`,
`features/time_view.py`), together with proofs settling the frozen claims
about its specification.

Conventions of the embedding:
* raw payload bytes are `Nat` values (well-formed payloads have every byte
  `< 256`);
* decoded unsigned 16-bit samples are `Nat` values, stored in buffers as `ℚ`
  after the `float` conversion;
* wall-clock instants are `ℚ` (seconds); ISO timestamp strings are `String`;
* Python's `collections.deque` with a `maxlen` is the `Deque` structure below
  (ring semantics: appending to a full deque evicts the oldest element);
* fallible code returns `Except`/`Option`; collaborator calls whose outcome
  the code branches on (the document store) are passed in as a boolean
  outcome, and side effects are recorded as explicit event lists.
-/

namespace DataSaving

/-! ### Payload decoder — `MQTTWorker.on_message`, `mqtthandler.py` lines 97–105

`struct.unpack(f"{len(payload) // 2}H", payload)` reads consecutive pairs of
bytes as unsigned 16-bit integers in the platform's fixed (little-endian)
byte order.  `unpack16` is that reading; `decode` is the validation sequence
of `on_message`: odd byte length raises the payload-size `ValueError`, an
empty decoded list raises the empty-payload `ValueError`. -/

inductive DecodeError
  /-- "Payload size is not a multiple of 2, cannot unpack as uint16_t" -/
  | payloadSize
  /-- "Empty or invalid payload" -/
  | emptyPayload
deriving DecidableEq

def unpack16 : List Nat → List Nat
  | b0 :: b1 :: rest => (b0 + 256 * b1) :: unpack16 rest
  | _ => []

def decode (payload : List Nat) : Except DecodeError (List Nat) :=
  if payload.length % 2 ≠ 0 then .error .payloadSize
  else if unpack16 payload = [] then .error .emptyPayload
  else .ok (unpack16 payload)

/-! ### Payload encoder — `MQTTPublisher.publish_message`, `publish.py` lines 39–41

`struct.pack(f"{len(values)}H", *values)` writes each value as two bytes in
the same fixed byte order. -/

def pack16 : List Nat → List Nat
  | [] => []
  | v :: rest => v % 256 :: v / 256 % 256 :: pack16 rest

/-! ### Message handling — `MQTTWorker.on_message`, `mqtthandler.py` lines 92–120

After a successful decode the worker calls `db.update_tag_value` and emits
`data_received` only when that call reports success; a failed update is
logged and the values are dropped.  A decode failure is logged and nothing
else happens.  The observable behaviour is recorded as an action list; the
document store's verdict is the `dbOk` argument. -/

inductive WorkerAction
  | logDecodeError (e : DecodeError)
  | dbUpdate (values : List Nat)
  | emitDataReceived (topic : String) (values : List Nat)
  | logStoreFailure
deriving DecidableEq

def on_message (topic : String) (payload : List Nat) (dbOk : Bool) :
    List WorkerAction :=
  match decode payload with
  | .error e => [.logDecodeError e]
  | .ok values =>
      .dbUpdate values ::
        (if dbOk then [.emitDataReceived topic values] else [.logStoreFailure])

/-! ### Basic facts about the decoder -/

theorem unpack16_length : ∀ l : List Nat, (unpack16 l).length = l.length / 2
  | [] => rfl
  | [_] => by simp [unpack16]
  | _ :: _ :: rest => by
      simp only [unpack16, List.length_cons, unpack16_length rest]
      omega

theorem unpack16_eq_nil_iff (l : List Nat) : unpack16 l = [] ↔ l.length < 2 := by
  match l with
  | [] => simp [unpack16]
  | [_] => simp [unpack16]
  | _ :: _ :: rest => simp [unpack16]

theorem unpack16_getElem? :
    ∀ (l : List Nat) (i b0 b1 : Nat), l[2 * i]? = some b0 → l[2 * i + 1]? = some b1 →
      (unpack16 l)[i]? = some (b0 + 256 * b1)
  | [], i, b0, b1 => by simp
  | [_], i, b0, b1 => by
      intro h0 h1
      rcases i with _ | i <;> simp_all
  | a :: b :: rest, i, b0, b1 => by
      rcases i with _ | i
      · intro h0 h1
        simp only [Nat.mul_zero, List.getElem?_cons_zero, Option.some.injEq] at h0
        simp only [Nat.mul_zero, Nat.zero_add, List.getElem?_cons_succ,
          List.getElem?_cons_zero, Option.some.injEq] at h1
        simp [unpack16, h0, h1]
      · intro h0 h1
        have e0 : 2 * (i + 1) = (2 * i) + 1 + 1 := by omega
        have e1 : 2 * (i + 1) + 1 = (2 * i + 1) + 1 + 1 := by omega
        rw [e0] at h0
        rw [e1] at h1
        simp only [List.getElem?_cons_succ] at h0 h1
        simpa [unpack16] using unpack16_getElem? rest i b0 b1 h0 h1

theorem unpack16_lt_65536 :
    ∀ l : List Nat, (∀ b ∈ l, b < 256) → ∀ v ∈ unpack16 l, v < 65536
  | [] => by simp [unpack16]
  | [_] => by simp [unpack16]
  | b0 :: b1 :: rest => by
      intro hb v hv
      simp only [unpack16, List.mem_cons] at hv
      rcases hv with rfl | hv
      · have h0 : b0 < 256 := hb b0 (by simp)
        have h1 : b1 < 256 := hb b1 (by simp)
        omega
      · exact unpack16_lt_65536 rest (fun b hbm => hb b (by simp [hbm])) v hv

theorem pack16_unpack16 :
    ∀ l : List Nat, l.length % 2 = 0 → (∀ b ∈ l, b < 256) →
      pack16 (unpack16 l) = l
  | [] => by intros; rfl
  | [_] => by intro h _; simp at h
  | b0 :: b1 :: rest => by
      intro hlen hb
      have h0 : b0 < 256 := hb b0 (by simp)
      have h1 : b1 < 256 := hb b1 (by simp)
      have hr : rest.length % 2 = 0 := by
        simp only [List.length_cons] at hlen; omega
      have hbr : ∀ b ∈ rest, b < 256 := fun b hbm => hb b (by simp [hbm])
      simp only [unpack16, pack16, pack16_unpack16 rest hr hbr]
      have e0 : (b0 + 256 * b1) % 256 = b0 := by omega
      have e1 : (b0 + 256 * b1) / 256 % 256 = b1 := by omega
      rw [e0, e1]

/-! ### Bounded deques — `collections.deque(maxlen=n)`

`append` on a full deque evicts the oldest element; constructing a deque from
an iterable longer than `maxlen` keeps the most recent `maxlen` elements.
`takeLast l n` is the list of the most recent (up to) `n` elements of `l`. -/

def takeLast {α : Type} (l : List α) (n : Nat) : List α :=
  l.drop (l.length - n)

structure Deque (α : Type) where
  data : List α
  maxlen : Nat
deriving DecidableEq

def Deque.append {α : Type} (d : Deque α) (x : α) : Deque α :=
  ⟨takeLast (d.data ++ [x]) d.maxlen, d.maxlen⟩

/-- `deque.extend(xs)`: append each element of `xs` in order. -/
def Deque.extendAll {α : Type} (d : Deque α) (xs : List α) : Deque α :=
  xs.foldl Deque.append d

/-- `deque(old, maxlen=n)`: keep the most recent `n` elements of `old`. -/
def reDeque {α : Type} (d : Deque α) (n : Nat) : Deque α :=
  ⟨takeLast d.data n, n⟩

/-! ### Consumer-side state — `TimeViewFeature.__init__`, `time_view.py` lines 87–109

Only the fields the ingestion/recording pipeline reads or writes are kept;
widgets and the matplotlib figure are presentation and out of scope. -/

structure Frame where
  project_name : String
  topic : Option String
  filename : String
  frameIndex : Nat
  numberOfChannels : Nat
  samplingRate : Option ℚ
  samplingSize : Nat
  messageFrequency : Option ℚ
  message : List ℚ
  createdAt : String
deriving DecidableEq

structure TVState where
  project_name : String
  mqtt_tag : Option String
  b0 : Deque ℚ
  b1 : Deque ℚ
  b2 : Deque ℚ
  b3 : Deque ℚ
  timestamps : Deque String
  data_rate : ℚ
  last_data_time : Option ℚ
  is_saving : Bool
  frame_index : Nat
  filename_counter : Nat
deriving DecidableEq

def initial_buffer_size : Nat := 4096

/-- The state built by `TimeViewFeature.__init__` (for a given project). -/
def initState (project : String) : TVState :=
  { project_name := project
    mqtt_tag := none
    b0 := ⟨[], initial_buffer_size⟩
    b1 := ⟨[], initial_buffer_size⟩
    b2 := ⟨[], initial_buffer_size⟩
    b3 := ⟨[], initial_buffer_size⟩
    timestamps := ⟨[], initial_buffer_size * 4⟩
    data_rate := 1
    last_data_time := none
    is_saving := false
    frame_index := 0
    filename_counter := 1 }

/-! ### Recording controller — `start_saving` / `stop_saving`,
`time_view.py` lines 212–238 -/

/-- `not self.mqtt_tag or self.mqtt_tag == "No Tags Available"`
(`None` and the empty string are falsy). -/
def tagInvalid : Option String → Bool
  | none => true
  | some s => s = "" || s = "No Tags Available"

/-- The filename the current session writes to: `f"data{self.filename_counter}"`. -/
def session_filename (st : TVState) : String :=
  "data" ++ toString st.filename_counter

def start_saving (st : TVState) : TVState × Option String :=
  if tagInvalid st.mqtt_tag then
    (st, some "Error: Please select a valid tag!")
  else
    ({ st with is_saving := true, frame_index := 0 }, none)

def stop_saving (st : TVState) : TVState :=
  { st with is_saving := false, filename_counter := st.filename_counter + 1 }

/-! ### Channel demultiplexer — `split_and_store_values`,
`time_view.py` lines 280–323

The loop `for i in range(0, min(len(values), 4096 * 4), 4)` guarded by
`if i + 3 < len(values)` processes the input in complete consecutive groups
of 4, never beyond the first `4096 * 4` values: exactly the complete groups
of 4 of `values.take (4096 * 4)`.  Each group appends one value to each
channel buffer and the timestamp four times to the timestamp buffer.
If `is_saving`, one frame document is then submitted; on success the frame
index is incremented, on failure an error is reported and nothing else
changes.  The document store's verdict is the `dbOk` argument; the returned
list holds the submitted frames and the returned `Option String` the error
text shown to the caller, if any. -/

def chunks4 : List ℚ → List (ℚ × ℚ × ℚ × ℚ)
  | a :: b :: c :: d :: rest => (a, b, c, d) :: chunks4 rest
  | _ => []

def storeGroup (timestamp : String) (st : TVState) (g : ℚ × ℚ × ℚ × ℚ) : TVState :=
  { st with
    b0 := st.b0.append g.1
    b1 := st.b1.append g.2.1
    b2 := st.b2.append g.2.2.1
    b3 := st.b3.append g.2.2.2
    timestamps := st.timestamps.extendAll [timestamp, timestamp, timestamp, timestamp] }

def storeGroups (st : TVState) (gs : List (ℚ × ℚ × ℚ × ℚ)) (timestamp : String) :
    TVState :=
  gs.foldl (storeGroup timestamp) st

def split_and_store_values (st : TVState) (values : List ℚ) (timestamp : String)
    (dbOk : Bool) : TVState × List Frame × Option String :=
  let st1 := storeGroups st (chunks4 (values.take (4096 * 4))) timestamp
  if st1.is_saving then
    let fr : Frame :=
      { project_name := st1.project_name
        topic := st1.mqtt_tag
        filename := "data" ++ toString st1.filename_counter
        frameIndex := st1.frame_index
        numberOfChannels := 4
        samplingRate := if st1.data_rate > 0 then some st1.data_rate else none
        samplingSize := 16
        messageFrequency := if st1.data_rate > 0 then some (st1.data_rate / 4) else none
        message := values.take (4096 * 4)
        createdAt := timestamp }
    if dbOk then
      ({ st1 with frame_index := st1.frame_index + 1 }, [fr], none)
    else
      (st1, [fr], some "Error saving data")
  else
    (st1, [], none)

/-! ### Adaptive buffer resizing — `adjust_buffer_size`,
`time_view.py` lines 325–333

`int(self.data_rate * window_size * 2)` truncates toward zero; the rate is
positive on this branch so it is the floor. -/

def adjust_buffer_size (st : TVState) : TVState :=
  if 0 < st.data_rate then
    let new_buffer_size := max (⌊st.data_rate * 1 * 2⌋.toNat) 100
    if new_buffer_size ≠ st.b0.maxlen then
      { st with
        b0 := reDeque st.b0 new_buffer_size
        b1 := reDeque st.b1 new_buffer_size
        b2 := reDeque st.b2 new_buffer_size
        b3 := reDeque st.b3 new_buffer_size
        timestamps := reDeque st.timestamps (new_buffer_size * 4) }
    else st
  else st

/-! ### Rate estimator — `on_data_received`, `time_view.py` lines 414–423 -/

/-- `self.data_rate = 1.0` in `__init__`. -/
def initial_data_rate : ℚ := 1

/-- The new value of `self.data_rate` after a message carrying
`values_count` scalars arrives at `current_time`. -/
def rate_update (last_data_time : Option ℚ) (current_time : ℚ)
    (data_rate : ℚ) (values_count : Nat) : ℚ :=
  match last_data_time with
  | none => data_rate
  | some last =>
      if 0 < current_time - last then
        (values_count : ℚ) / (current_time - last) / 4
      else data_rate

/-! ### Tick generation — `generate_y_ticks`, `time_view.py` lines 335–351,
and the fallback y-range of `update_time_view_plot`, lines 376–388

Values coming out of numpy are floats that may be non-finite; a value is
modelled as `Option ℚ`, `none` standing for a non-finite float, so that
`np.isfinite` is `Option.isSome`.  `np.arange(0, 100, 10)` is the default
tick set. -/

def default_ticks : List ℚ :=
  (List.range 10).map (fun k => (10 : ℚ) * k)

/-- The `while current <= y_max` accumulation loop of `generate_y_ticks`.
It terminates because `step` is positive (at the call site `step ≥ 1`). -/
def tickLoop (y_max step : ℚ) (hstep : 0 < step) (current : ℚ) : List ℚ :=
  if current ≤ y_max then
    current :: tickLoop y_max step hstep (current + step)
  else []
termination_by (⌊(y_max - current) / step⌋ + 1).toNat
decreasing_by
  have hs0 : step ≠ 0 := ne_of_gt hstep
  have h1 : (y_max - (current + step)) / step = (y_max - current) / step - 1 := by
    field_simp
    ring
  rw [h1, Int.floor_sub_one]
  have h2 : (0 : ℚ) ≤ (y_max - current) / step :=
    div_nonneg (by linarith) (le_of_lt hstep)
  have h3 : (0 : ℤ) ≤ ⌊(y_max - current) / step⌋ := Int.floor_nonneg.mpr h2
  omega

theorem step_lower_bound (s : ℚ) (hs : 1 ≤ s) :
    (0 : ℚ) < (⌈s / (1 / 2)⌉ : ℚ) * (1 / 2) := by
  have h1 : (0 : ℚ) < s / (1 / 2) := by positivity
  have h2 : (0 : ℤ) < ⌈s / (1 / 2)⌉ := Int.ceil_pos.mpr h1
  have h3 : (0 : ℚ) < (⌈s / (1 / 2)⌉ : ℚ) := by exact_mod_cast h2
  linarith

def generate_y_ticks (values : List (Option ℚ)) : List ℚ :=
  if values.isEmpty || !(values.all Option.isSome) then default_ticks
  else
    match values.reduceOption with
    | [] => default_ticks
    | v :: vs =>
        let y_max0 := vs.foldl max v
        let y_min0 := vs.foldl min v
        let padding := if y_max0 ≠ y_min0 then (y_max0 - y_min0) * (1 / 10) else 1
        let y_max := y_max0 + padding
        let y_min := y_min0 - padding
        let range_val := y_max - y_min
        let step1 := max (range_val / 10) 1
        tickLoop y_max ((⌈step1 / (1 / 2)⌉ : ℚ) * (1 / 2))
          (step_lower_bound step1 (le_max_right _ 1))
          ((⌊y_min / ((⌈step1 / (1 / 2)⌉ : ℚ) * (1 / 2))⌋ : ℚ) *
            ((⌈step1 / (1 / 2)⌉ : ℚ) * (1 / 2)))

/-- The y-axis limits chosen by `update_time_view_plot` for one channel's
window values: `(0, 100)` for an empty or non-finite window, otherwise the
min/max padded by 10% of the range (flat 1.0 when degenerate). -/
def window_y_range (window_values : List (Option ℚ)) : ℚ × ℚ :=
  if window_values.isEmpty || !(window_values.all Option.isSome) then (0, 100)
  else
    match window_values.reduceOption with
    | [] => (0, 100)
    | v :: vs =>
        let y_max := vs.foldl max v
        let y_min := vs.foldl min v
        let padding := if y_max ≠ y_min then (y_max - y_min) * (1 / 10) else 1
        (y_min - padding, y_max + padding)

/-- The tick enumeration as the claim words it, in closed form: padded
`y_min`/`y_max`, `step = max(range/10, 1)` rounded up to the nearest `0.5`,
ticks running from `floor(y_min/step)*step` upward by `step` while
`≤ y_max` — written as an explicit arithmetic progression rather than the
source's accumulation loop. -/
def claimYTicks (nums : List ℚ) : List ℚ :=
  match nums with
  | [] => default_ticks
  | v :: vs =>
      let y_max0 := vs.foldl max v
      let y_min0 := vs.foldl min v
      let padding := if y_max0 ≠ y_min0 then (y_max0 - y_min0) * (1 / 10) else 1
      let y_max := y_max0 + padding
      let y_min := y_min0 - padding
      let range_val := y_max - y_min
      let step1 := max (range_val / 10) 1
      let step := (⌈step1 / (1 / 2)⌉ : ℚ) * (1 / 2)
      let start := (⌊y_min / step⌋ : ℚ) * step
      (List.range (⌊(y_max - start) / step⌋ + 1).toNat).map
        (fun k : Nat => start + (k : ℚ) * step)

/-! ### Broker connection manager — `connect_with_retry`,
`mqtthandler.py` lines 48–65

The `while self.running and attempt < max_retries` loop performs one
`client.connect` call per iteration (the `connectAttempt` event, whose
success is given by `outcomes attempt`), returns on the first success after
emitting `connected`, sleeps `retry_interval` seconds between consecutive
failed attempts, and emits `connection_failed` once after the last failed
attempt.  `attempt` increases by one per iteration, so `max_retries` units
of fuel are exact. -/

inductive MqttEvent
  | connectAttempt
  | sleepSecs (s : Nat)
  | connectedEmit
  | connectionFailedEmit
deriving DecidableEq

def max_retries : Nat := 3

def retry_interval : Nat := 5

def connectLoop (outcomes : Nat → Bool) (running : Bool) :
    Nat → Nat → List MqttEvent
  | _, 0 => []
  | attempt, fuel + 1 =>
      if running = true ∧ attempt < max_retries then
        if outcomes attempt then
          [.connectAttempt, .connectedEmit]
        else
          .connectAttempt ::
            (if attempt + 1 < max_retries then
              .sleepSecs retry_interval ::
                connectLoop outcomes running (attempt + 1) fuel
            else [.connectionFailedEmit])
      else []

def connect_with_retry (outcomes : Nat → Bool) (running : Bool) :
    List MqttEvent :=
  connectLoop outcomes running 0 max_retries

/-! ### Helper lemmas -/

theorem takeLast_length {α : Type} (l : List α) (n : Nat) :
    (takeLast l n).length = min l.length n := by
  simp only [takeLast, List.length_drop]
  omega

theorem takeLast_isSuffix {α : Type} (l : List α) (n : Nat) :
    takeLast l n <:+ l :=
  List.drop_suffix _ _

/-- The `while` loop of `generate_y_ticks` enumerates exactly the arithmetic
progression `current, current + step, …` of all points `≤ y_max`. -/
theorem tickLoop_eq_range :
    ∀ (n : Nat) (y_max step : ℚ) (hstep : 0 < step) (current : ℚ),
      (⌊(y_max - current) / step⌋ + 1).toNat = n →
      tickLoop y_max step hstep current =
        (List.range n).map (fun k : Nat => current + (k : ℚ) * step)
  | 0, y_max, step, hstep, current => by
      intro hn
      have hneg : ¬ current ≤ y_max := by
        intro hc
        have hr : (0 : ℚ) ≤ (y_max - current) / step :=
          div_nonneg (by linarith) hstep.le
        have : (0 : ℤ) ≤ ⌊(y_max - current) / step⌋ := Int.floor_nonneg.mpr hr
        omega
      rw [tickLoop, if_neg hneg]
      rfl
  | n + 1, y_max, step, hstep, current => by
      intro hn
      have hfl : (0 : ℤ) ≤ ⌊(y_max - current) / step⌋ := by omega
      have hr : (0 : ℚ) ≤ (y_max - current) / step := Int.floor_nonneg.mp hfl
      have hcur : current ≤ y_max := by
        have hm : (0 : ℚ) ≤ (y_max - current) / step * step :=
          mul_nonneg hr hstep.le
        rw [div_mul_cancel₀ _ (ne_of_gt hstep)] at hm
        linarith
      have hfloor_next :
          ⌊(y_max - (current + step)) / step⌋ = ⌊(y_max - current) / step⌋ - 1 := by
        have h1 : (y_max - (current + step)) / step = (y_max - current) / step - 1 := by
          field_simp
          ring
        rw [h1, Int.floor_sub_one]
      have hn' : (⌊(y_max - (current + step)) / step⌋ + 1).toNat = n := by
        rw [hfloor_next]
        omega
      rw [tickLoop, if_pos hcur,
        tickLoop_eq_range n y_max step hstep (current + step) hn',
        List.range_succ_eq_map]
      simp only [List.map_cons, List.map_map, Nat.cast_zero, zero_mul, add_zero]
      congr 1
      apply List.map_congr_left
      intro k _
      simp only [Function.comp_apply, Nat.succ_eq_add_one]
      push_cast
      ring

theorem chunks4_length : ∀ l : List ℚ, (chunks4 l).length = l.length / 4
  | [] => rfl
  | [_] => by simp [chunks4]
  | [_, _] => by simp [chunks4]
  | [_, _, _] => by simp [chunks4]
  | _ :: _ :: _ :: _ :: rest => by
      simp only [chunks4, List.length_cons, chunks4_length rest]
      omega

/-- The `k`-th group of 4 holds the input values at offsets `4k … 4k+3`,
routed to channels 0–3 in that order. -/
theorem chunks4_getElem? :
    ∀ (l : List ℚ) (k : Nat), k < (chunks4 l).length →
      ((chunks4 l).map (fun g => g.1))[k]? = l[4 * k]? ∧
      ((chunks4 l).map (fun g => g.2.1))[k]? = l[4 * k + 1]? ∧
      ((chunks4 l).map (fun g => g.2.2.1))[k]? = l[4 * k + 2]? ∧
      ((chunks4 l).map (fun g => g.2.2.2))[k]? = l[4 * k + 3]?
  | [], k => by simp [chunks4]
  | [_], k => by simp [chunks4]
  | [_, _], k => by simp [chunks4]
  | [_, _, _], k => by simp [chunks4]
  | a :: b :: c :: d :: rest, 0 => by
      intro _
      simp [chunks4]
  | a :: b :: c :: d :: rest, k + 1 => by
      intro hk
      have hk' : k < (chunks4 rest).length := by
        simp only [chunks4, List.length_cons] at hk
        omega
      have ih := chunks4_getElem? rest k hk'
      have e0 : 4 * (k + 1) = 4 * k + 1 + 1 + 1 + 1 := by ring
      have e1 : 4 * (k + 1) + 1 = 4 * k + 1 + 1 + 1 + 1 + 1 := by ring
      have e2 : 4 * (k + 1) + 2 = 4 * k + 2 + 1 + 1 + 1 + 1 := by ring
      have e3 : 4 * (k + 1) + 3 = 4 * k + 3 + 1 + 1 + 1 + 1 := by ring
      rw [e3, e2, e1, e0]
      simpa [chunks4, List.getElem?_cons_succ] using ih

theorem storeGroups_b0 (gs : List (ℚ × ℚ × ℚ × ℚ)) :
    ∀ (st : TVState) (t : String),
      (storeGroups st gs t).b0 = st.b0.extendAll (gs.map fun g => g.1) := by
  induction gs with
  | nil => intro st t; rfl
  | cons g gs ih =>
      intro st t
      simp only [storeGroups, List.foldl_cons, List.map_cons] at *
      rw [ih]
      rfl

theorem storeGroups_b1 (gs : List (ℚ × ℚ × ℚ × ℚ)) :
    ∀ (st : TVState) (t : String),
      (storeGroups st gs t).b1 = st.b1.extendAll (gs.map fun g => g.2.1) := by
  induction gs with
  | nil => intro st t; rfl
  | cons g gs ih =>
      intro st t
      simp only [storeGroups, List.foldl_cons, List.map_cons] at *
      rw [ih]
      rfl

theorem storeGroups_b2 (gs : List (ℚ × ℚ × ℚ × ℚ)) :
    ∀ (st : TVState) (t : String),
      (storeGroups st gs t).b2 = st.b2.extendAll (gs.map fun g => g.2.2.1) := by
  induction gs with
  | nil => intro st t; rfl
  | cons g gs ih =>
      intro st t
      simp only [storeGroups, List.foldl_cons, List.map_cons] at *
      rw [ih]
      rfl

theorem storeGroups_b3 (gs : List (ℚ × ℚ × ℚ × ℚ)) :
    ∀ (st : TVState) (t : String),
      (storeGroups st gs t).b3 = st.b3.extendAll (gs.map fun g => g.2.2.2) := by
  induction gs with
  | nil => intro st t; rfl
  | cons g gs ih =>
      intro st t
      simp only [storeGroups, List.foldl_cons, List.map_cons] at *
      rw [ih]
      rfl

theorem extendAll_extendAll {α : Type} (d : Deque α) (xs ys : List α) :
    (d.extendAll xs).extendAll ys = d.extendAll (xs ++ ys) := by
  simp [Deque.extendAll, List.foldl_append]

theorem storeGroups_timestamps (gs : List (ℚ × ℚ × ℚ × ℚ)) :
    ∀ (st : TVState) (t : String),
      (storeGroups st gs t).timestamps =
        st.timestamps.extendAll (List.replicate (4 * gs.length) t) := by
  induction gs with
  | nil => intro st t; rfl
  | cons g gs ih =>
      intro st t
      simp only [storeGroups, List.foldl_cons] at *
      rw [ih]
      show (st.timestamps.extendAll [t, t, t, t]).extendAll _ = _
      rw [extendAll_extendAll]
      have e : 4 * (g :: gs).length = 4 + 4 * gs.length := by
        simp only [List.length_cons]
        omega
      rw [e, List.replicate_add]
      rfl

/-- `storeGroups` touches only the buffers: every other field survives. -/
theorem storeGroups_fields (gs : List (ℚ × ℚ × ℚ × ℚ)) :
    ∀ (st : TVState) (t : String),
      (storeGroups st gs t).is_saving = st.is_saving ∧
      (storeGroups st gs t).frame_index = st.frame_index ∧
      (storeGroups st gs t).filename_counter = st.filename_counter ∧
      (storeGroups st gs t).data_rate = st.data_rate ∧
      (storeGroups st gs t).mqtt_tag = st.mqtt_tag ∧
      (storeGroups st gs t).project_name = st.project_name ∧
      (storeGroups st gs t).last_data_time = st.last_data_time := by
  induction gs with
  | nil => intro st t; exact ⟨rfl, rfl, rfl, rfl, rfl, rfl, rfl⟩
  | cons g gs ih =>
      intro st t
      simpa only [storeGroups, List.foldl_cons] using ih (storeGroup t st g) t

/-- In every branch of `split_and_store_values`, the resulting buffers are
those produced by the demultiplexing loop. -/
theorem split_buffers_eq (st : TVState) (values : List ℚ) (T : String) (dbOk : Bool) :
    (split_and_store_values st values T dbOk).1.b0 =
        (storeGroups st (chunks4 (values.take (4096 * 4))) T).b0 ∧
    (split_and_store_values st values T dbOk).1.b1 =
        (storeGroups st (chunks4 (values.take (4096 * 4))) T).b1 ∧
    (split_and_store_values st values T dbOk).1.b2 =
        (storeGroups st (chunks4 (values.take (4096 * 4))) T).b2 ∧
    (split_and_store_values st values T dbOk).1.b3 =
        (storeGroups st (chunks4 (values.take (4096 * 4))) T).b3 ∧
    (split_and_store_values st values T dbOk).1.timestamps =
        (storeGroups st (chunks4 (values.take (4096 * 4))) T).timestamps := by
  unfold split_and_store_values
  dsimp only
  split
  · split <;> exact ⟨rfl, rfl, rfl, rfl, rfl⟩
  · exact ⟨rfl, rfl, rfl, rfl, rfl⟩

/-! ### Claims -/

/-- Claim C2: decoding a raw byte payload fails exactly when the byte length
is odd (with the payload-size error) or the decoded sequence is empty (with
the empty-payload error), producing no samples in either case — the worker
only logs the error; every other payload decodes to `length / 2` unsigned
16-bit samples in input order. -/
theorem C2_decode_validation (payload : List Nat) :
    (payload.length % 2 = 1 → decode payload = .error .payloadSize) ∧
    (payload.length % 2 = 0 → payload = [] → decode payload = .error .emptyPayload) ∧
    ((∃ e, decode payload = .error e) ↔ (payload.length % 2 = 1 ∨ payload = [])) ∧
    (payload.length % 2 = 0 → payload ≠ [] →
        decode payload = .ok (unpack16 payload) ∧
        (unpack16 payload).length = payload.length / 2 ∧
        (∀ i b0 b1, payload[2 * i]? = some b0 → payload[2 * i + 1]? = some b1 →
            (unpack16 payload)[i]? = some (b0 + 256 * b1)) ∧
        ((∀ b ∈ payload, b < 256) → ∀ v ∈ unpack16 payload, v < 65536)) ∧
    (∀ e, decode payload = .error e →
        ∀ t dbOk, on_message t payload dbOk = [.logDecodeError e]) := by
  have hok : payload.length % 2 = 0 → payload ≠ [] →
      decode payload = .ok (unpack16 payload) := by
    intro h2 hne
    have hlen0 : payload.length ≠ 0 := fun h => hne (List.length_eq_zero.mp h)
    unfold decode
    rw [if_neg (by omega), if_neg (by rw [unpack16_eq_nil_iff]; omega)]
  refine ⟨?_, ?_, ?_, ?_, ?_⟩
  · intro h
    unfold decode
    rw [if_pos (by omega)]
  · intro _ h
    subst h
    rfl
  · constructor
    · rintro ⟨e, he⟩
      by_cases h1 : payload.length % 2 = 1
      · exact Or.inl h1
      · have h2 : payload.length % 2 = 0 := by omega
        by_cases hne : payload = []
        · exact Or.inr hne
        · rw [hok h2 hne] at he
          simp at he
    · rintro (h1 | h1)
      · refine ⟨.payloadSize, ?_⟩
        unfold decode
        rw [if_pos (by omega)]
      · subst h1
        exact ⟨.emptyPayload, rfl⟩
  · intro h2 hne
    exact ⟨hok h2 hne, unpack16_length payload,
      fun i b0 b1 hb0 hb1 => unpack16_getElem? payload i b0 b1 hb0 hb1,
      unpack16_lt_65536 payload⟩
  · intro e he t dbOk
    unfold on_message
    rw [he]

theorem C2_decode_validation_witness :
    ([3] : List Nat).length % 2 = 1 ∧ decode [3] = .error .payloadSize :=
  ⟨by decide, (C2_decode_validation [3]).1 (by decide)⟩

/-- Claim C3: decoding a valid (even-length, non-empty) byte payload into
unsigned 16-bit samples and re-encoding the samples with the same fixed
endianness reproduces the original byte sequence exactly. -/
theorem C3_decode_encode_roundtrip (payload : List Nat)
    (heven : payload.length % 2 = 0) (hne : payload ≠ [])
    (hbytes : ∀ b ∈ payload, b < 256) :
    ∃ vs, decode payload = .ok vs ∧ pack16 vs = payload := by
  have hlen0 : payload.length ≠ 0 := fun h => hne (List.length_eq_zero.mp h)
  have hdec : decode payload = .ok (unpack16 payload) := by
    unfold decode
    rw [if_neg (by omega), if_neg (by rw [unpack16_eq_nil_iff]; omega)]
  exact ⟨unpack16 payload, hdec, pack16_unpack16 payload heven hbytes⟩

theorem C3_decode_encode_roundtrip_witness :
    ([1, 2] : List Nat).length % 2 = 0 ∧ ([1, 2] : List Nat) ≠ [] ∧
    ∃ vs, decode [1, 2] = .ok vs ∧ pack16 vs = [1, 2] :=
  ⟨by decide, by decide,
    C3_decode_encode_roundtrip [1, 2] (by decide) (by decide) (by decide)⟩

/-- Claim C5: on each received message the rate estimator sets
`data_rate = values_count / elapsed / 4`; with no previous arrival timestamp
the rate keeps its prior value (initially `1.0`), and with a zero or negative
elapsed time the rate is left unchanged. -/
theorem C5_rate_estimator (cur rate : ℚ) (n : Nat) :
    initial_data_rate = 1 ∧
    rate_update none cur rate n = rate ∧
    (∀ last, 0 < cur - last →
        rate_update (some last) cur rate n = (n : ℚ) / (cur - last) / 4) ∧
    (∀ last, cur - last ≤ 0 → rate_update (some last) cur rate n = rate) := by
  refine ⟨rfl, rfl, ?_, ?_⟩
  · intro last h
    simp only [rate_update]
    rw [if_pos h]
  · intro last h
    simp only [rate_update]
    rw [if_neg (not_lt.mpr h)]

theorem C5_rate_estimator_witness :
    (0 : ℚ) < 2 - 1 ∧ rate_update (some 1) 2 7 8 = (8 : ℚ) / (2 - 1) / 4 :=
  ⟨by norm_num, (C5_rate_estimator 2 7 8).2.2.1 1 (by norm_num)⟩

/-- Claim C10: for every successfully decoded message the worker submits the
values to the database first and emits `data_received` only when that update
succeeds; when it fails, the samples are dropped (logged, no event). -/
theorem C10_db_gates_emit (topic : String) (payload : List Nat) (dbOk : Bool) :
    (∀ vs, decode payload = .ok vs →
        (dbOk = true → on_message topic payload dbOk =
            [.dbUpdate vs, .emitDataReceived topic vs]) ∧
        (dbOk = false → on_message topic payload dbOk =
            [.dbUpdate vs, .logStoreFailure])) ∧
    (∀ vs, WorkerAction.emitDataReceived topic vs ∈ on_message topic payload dbOk →
        decode payload = .ok vs ∧ dbOk = true) := by
  constructor
  · intro vs hokv
    constructor <;> intro hdb <;> subst hdb <;>
      (unfold on_message; rw [hokv]) <;> rfl
  · intro vs hmem
    unfold on_message at hmem
    cases hd : decode payload with
    | error e =>
        rw [hd] at hmem
        simp at hmem
    | ok ws =>
        rw [hd] at hmem
        cases dbOk with
        | false => simp at hmem
        | true =>
            simp only [eq_self_iff_true, if_true, ite_true, List.mem_cons,
              List.not_mem_nil, or_false, List.mem_singleton,
              WorkerAction.emitDataReceived.injEq] at hmem
            rcases hmem with h | h
            · exact absurd h (by simp)
            · exact ⟨by rw [h.2], rfl⟩

theorem C10_db_gates_emit_witness :
    decode [1, 0] = .ok [1] ∧
    on_message "t" [1, 0] true = [.dbUpdate [1], .emitDataReceived "t" [1]] :=
  ⟨rfl, ((C10_db_gates_emit "t" [1, 0] true).1 [1] rfl).1 rfl⟩

/-- Claim C6: `start()` with no valid tag selected returns an error and
changes no recording state; with a valid tag it enters Recording with frame
index 0 and filename `data<counter>`; `stop()` always succeeds, leaves
Recording, and increments the filename counter, so two successive
start/stop sessions use the strictly increasing filenames
`data<c>`, `data<c+1>` (`data1`, `data2` from the initial state). -/
theorem C6_recording_state_machine (st : TVState) :
    (tagInvalid st.mqtt_tag = true →
        start_saving st = (st, some "Error: Please select a valid tag!")) ∧
    (tagInvalid st.mqtt_tag = false →
        (start_saving st).2 = none ∧
        (start_saving st).1.is_saving = true ∧
        (start_saving st).1.frame_index = 0 ∧
        session_filename (start_saving st).1 = "data" ++ toString st.filename_counter) ∧
    ((stop_saving st).is_saving = false ∧
        (stop_saving st).filename_counter = st.filename_counter + 1) ∧
    (tagInvalid st.mqtt_tag = false →
        (start_saving (stop_saving (start_saving st).1)).2 = none ∧
        session_filename (start_saving st).1 = "data" ++ toString st.filename_counter ∧
        session_filename (start_saving (stop_saving (start_saving st).1)).1 =
          "data" ++ toString (st.filename_counter + 1) ∧
        st.filename_counter < st.filename_counter + 1) ∧
    session_filename
        (start_saving { initState "P" with mqtt_tag := some "tag1" }).1 = "data1" ∧
    session_filename
        (start_saving (stop_saving
          (start_saving { initState "P" with mqtt_tag := some "tag1" }).1)).1 = "data2" := by
  refine ⟨?_, ?_, ⟨rfl, rfl⟩, ?_, by decide, by decide⟩
  · intro h
    unfold start_saving
    rw [if_pos h]
  · intro h
    unfold start_saving
    rw [if_neg (by rw [h]; exact Bool.false_ne_true)]
    exact ⟨rfl, rfl, rfl, rfl⟩
  · intro h
    have hneg : ¬ (tagInvalid st.mqtt_tag = true) := by
      rw [h]; exact Bool.false_ne_true
    unfold start_saving stop_saving session_filename
    rw [if_neg hneg]
    dsimp only
    rw [if_neg hneg]
    exact ⟨rfl, rfl, rfl, Nat.lt_succ_self _⟩

theorem C6_recording_state_machine_witness :
    tagInvalid (initState "P").mqtt_tag = true ∧
    start_saving (initState "P") =
      (initState "P", some "Error: Please select a valid tag!") ∧
    tagInvalid ({ initState "P" with mqtt_tag := some "tag1" }).mqtt_tag = false ∧
    (start_saving { initState "P" with mqtt_tag := some "tag1" }).1.is_saving = true :=
  ⟨rfl, (C6_recording_state_machine (initState "P")).1 rfl, rfl,
    ((C6_recording_state_machine { initState "P" with mqtt_tag := some "tag1" }).2.1
      rfl).2.1⟩

/-- Claim C7: every sample batch consumed while recording is active submits
exactly one frame tagged with the current frame index; on success the frame
index is incremented; a submission failure is reported to the caller while
the session stays active and no other recording state changes. -/
theorem C7_frame_submission (st : TVState) (values : List ℚ) (T : String)
    (dbOk : Bool) (hsave : st.is_saving = true) :
    (split_and_store_values st values T dbOk).2.1.length = 1 ∧
    (∀ fr ∈ (split_and_store_values st values T dbOk).2.1,
        fr.frameIndex = st.frame_index ∧
        fr.filename = "data" ++ toString st.filename_counter ∧
        fr.numberOfChannels = 4 ∧
        fr.message = values.take (4096 * 4) ∧
        fr.createdAt = T) ∧
    (dbOk = true →
        (split_and_store_values st values T dbOk).2.2 = none ∧
        (split_and_store_values st values T dbOk).1.is_saving = true ∧
        (split_and_store_values st values T dbOk).1.frame_index = st.frame_index + 1) ∧
    (dbOk = false →
        (split_and_store_values st values T dbOk).2.2 = some "Error saving data" ∧
        (split_and_store_values st values T dbOk).1.is_saving = true ∧
        (split_and_store_values st values T dbOk).1.frame_index = st.frame_index ∧
        (split_and_store_values st values T dbOk).1.filename_counter = st.filename_counter ∧
        (split_and_store_values st values T dbOk).1.mqtt_tag = st.mqtt_tag) := by
  have hf := storeGroups_fields (chunks4 (values.take (4096 * 4))) st T
  obtain ⟨hfs, hfi, hfc, hfr,  hft, hfp, hfl⟩ := hf
  unfold split_and_store_values
  dsimp only
  rw [if_pos (by rw [hfs]; exact hsave)]
  cases dbOk with
  | true =>
      rw [if_pos rfl]
      refine ⟨rfl, ?_, ?_, ?_⟩
      · intro fr hfr'
        rw [List.mem_singleton] at hfr'
        subst hfr'
        exact ⟨hfi, by rw [hfc], rfl, rfl, rfl⟩
      · intro _
        exact ⟨rfl, hfs.trans hsave, by dsimp only; rw [hfi]⟩
      · intro hfalse
        exact absurd hfalse (by simp)
  | false =>
      rw [if_neg (by simp)]
      refine ⟨rfl, ?_, ?_, ?_⟩
      · intro fr hfr'
        rw [List.mem_singleton] at hfr'
        subst hfr'
        exact ⟨hfi, by rw [hfc], rfl, rfl, rfl⟩
      · intro htrue
        exact absurd htrue (by simp)
      · intro _
        exact ⟨rfl, hfs.trans hsave, hfi, hfc, hft⟩

theorem C7_frame_submission_witness :
    ({ initState "P" with is_saving := true } : TVState).is_saving = true ∧
    (split_and_store_values { initState "P" with is_saving := true }
        [1, 2, 3, 4] "T" false).2.2 = some "Error saving data" ∧
    (split_and_store_values { initState "P" with is_saving := true }
        [1, 2, 3, 4] "T" false).1.is_saving = true :=
  ⟨rfl,
    ((C7_frame_submission { initState "P" with is_saving := true }
        [1, 2, 3, 4] "T" false rfl).2.2.2 rfl).1,
    ((C7_frame_submission { initState "P" with is_saving := true }
        [1, 2, 3, 4] "T" false rfl).2.2.2 rfl).2.1⟩

/-- Claim C1: the demultiplexer consumes the input in consecutive groups of
4, appending the group's elements to channel buffers 0–3 respectively (under
ring eviction) and the timestamp four times per group to the timestamp
buffer; at most `4096 * 4` input values are processed per call (extras
truncated) and a trailing partial group of 1–3 values is discarded; group
`k` carries the input values at offsets `4k … 4k+3`; for input
`[1,…,8]` from the initial state the channel buffers hold
`[1,5], [2,6], [3,7], [4,8]` and the timestamp buffer `T` eight times. -/
theorem C1_channel_demux (st : TVState) (values : List ℚ) (T : String) (dbOk : Bool) :
    (split_and_store_values st values T dbOk).1.b0 =
        st.b0.extendAll ((chunks4 (values.take (4096 * 4))).map fun g => g.1) ∧
    (split_and_store_values st values T dbOk).1.b1 =
        st.b1.extendAll ((chunks4 (values.take (4096 * 4))).map fun g => g.2.1) ∧
    (split_and_store_values st values T dbOk).1.b2 =
        st.b2.extendAll ((chunks4 (values.take (4096 * 4))).map fun g => g.2.2.1) ∧
    (split_and_store_values st values T dbOk).1.b3 =
        st.b3.extendAll ((chunks4 (values.take (4096 * 4))).map fun g => g.2.2.2) ∧
    (split_and_store_values st values T dbOk).1.timestamps =
        st.timestamps.extendAll
          (List.replicate (4 * (chunks4 (values.take (4096 * 4))).length) T) ∧
    (chunks4 (values.take (4096 * 4))).length = min (values.length / 4) 4096 ∧
    (∀ k, k < (chunks4 (values.take (4096 * 4))).length →
        ((chunks4 (values.take (4096 * 4))).map fun g => g.1)[k]? = values[4 * k]? ∧
        ((chunks4 (values.take (4096 * 4))).map fun g => g.2.1)[k]? =
          values[4 * k + 1]? ∧
        ((chunks4 (values.take (4096 * 4))).map fun g => g.2.2.1)[k]? =
          values[4 * k + 2]? ∧
        ((chunks4 (values.take (4096 * 4))).map fun g => g.2.2.2)[k]? =
          values[4 * k + 3]?) ∧
    (split_and_store_values (initState "P")
        [1, 2, 3, 4, 5, 6, 7, 8] "T" false).1.b0.data = [1, 5] ∧
    (split_and_store_values (initState "P")
        [1, 2, 3, 4, 5, 6, 7, 8] "T" false).1.b1.data = [2, 6] ∧
    (split_and_store_values (initState "P")
        [1, 2, 3, 4, 5, 6, 7, 8] "T" false).1.b2.data = [3, 7] ∧
    (split_and_store_values (initState "P")
        [1, 2, 3, 4, 5, 6, 7, 8] "T" false).1.b3.data = [4, 8] ∧
    (split_and_store_values (initState "P")
        [1, 2, 3, 4, 5, 6, 7, 8] "T" false).1.timestamps.data =
      List.replicate 8 "T" := by
  obtain ⟨e0, e1, e2, e3, et⟩ := split_buffers_eq st values T dbOk
  have hlen : (chunks4 (values.take (4096 * 4))).length =
      min (values.length / 4) 4096 := by
    rw [chunks4_length, List.length_take]
    omega
  refine ⟨?_, ?_, ?_, ?_, ?_, hlen, ?_, by decide, by decide, by decide, by decide,
    by decide⟩
  · rw [e0, storeGroups_b0]
  · rw [e1, storeGroups_b1]
  · rw [e2, storeGroups_b2]
  · rw [e3, storeGroups_b3]
  · rw [et, storeGroups_timestamps]
  · intro k hk
    have hk4096 : k < 4096 := by omega
    obtain ⟨g0, g1, g2, g3⟩ := chunks4_getElem? (values.take (4096 * 4)) k hk
    have t0 : (values.take (4096 * 4))[4 * k]? = values[4 * k]? :=
      List.getElem?_take_of_lt (by omega)
    have t1 : (values.take (4096 * 4))[4 * k + 1]? = values[4 * k + 1]? :=
      List.getElem?_take_of_lt (by omega)
    have t2 : (values.take (4096 * 4))[4 * k + 2]? = values[4 * k + 2]? :=
      List.getElem?_take_of_lt (by omega)
    have t3 : (values.take (4096 * 4))[4 * k + 3]? = values[4 * k + 3]? :=
      List.getElem?_take_of_lt (by omega)
    exact ⟨g0.trans t0, g1.trans t1, g2.trans t2, g3.trans t3⟩

theorem C1_channel_demux_witness :
    1 < (chunks4 (([1, 2, 3, 4, 5, 6, 7, 8] : List ℚ).take (4096 * 4))).length ∧
    ((chunks4 (([1, 2, 3, 4, 5, 6, 7, 8] : List ℚ).take (4096 * 4))).map
        fun g => g.2.1)[1]? = ([1, 2, 3, 4, 5, 6, 7, 8] : List ℚ)[4 * 1 + 1]? :=
  ⟨by decide,
    ((C1_channel_demux (initState "P") [1, 2, 3, 4, 5, 6, 7, 8] "T"
        false).2.2.2.2.2.2.1 1 (by decide)).2.1⟩

/-- All effects of a resize cycle that actually reallocates: every buffer's
capacity becomes the recomputed one (timestamps 4×), and each buffer keeps a
most-recent suffix of its previous contents. -/
theorem adjust_resize_props (s : TVState) (hs : 0 < s.data_rate)
    (h : max (⌊s.data_rate * 1 * 2⌋.toNat) 100 ≠ s.b0.maxlen) :
    (adjust_buffer_size s).b0.maxlen = max (⌊s.data_rate * 1 * 2⌋.toNat) 100 ∧
    (adjust_buffer_size s).b1.maxlen = max (⌊s.data_rate * 1 * 2⌋.toNat) 100 ∧
    (adjust_buffer_size s).b2.maxlen = max (⌊s.data_rate * 1 * 2⌋.toNat) 100 ∧
    (adjust_buffer_size s).b3.maxlen = max (⌊s.data_rate * 1 * 2⌋.toNat) 100 ∧
    (adjust_buffer_size s).timestamps.maxlen =
      max (⌊s.data_rate * 1 * 2⌋.toNat) 100 * 4 ∧
    (adjust_buffer_size s).b0.data <:+ s.b0.data ∧
    (adjust_buffer_size s).b1.data <:+ s.b1.data ∧
    (adjust_buffer_size s).b2.data <:+ s.b2.data ∧
    (adjust_buffer_size s).b3.data <:+ s.b3.data ∧
    (adjust_buffer_size s).timestamps.data <:+ s.timestamps.data ∧
    (adjust_buffer_size s).b0.data.length =
      min s.b0.data.length (max (⌊s.data_rate * 1 * 2⌋.toNat) 100) ∧
    (adjust_buffer_size s).b1.data.length =
      min s.b1.data.length (max (⌊s.data_rate * 1 * 2⌋.toNat) 100) ∧
    (adjust_buffer_size s).b2.data.length =
      min s.b2.data.length (max (⌊s.data_rate * 1 * 2⌋.toNat) 100) ∧
    (adjust_buffer_size s).b3.data.length =
      min s.b3.data.length (max (⌊s.data_rate * 1 * 2⌋.toNat) 100) ∧
    (adjust_buffer_size s).timestamps.data.length =
      min s.timestamps.data.length (max (⌊s.data_rate * 1 * 2⌋.toNat) 100 * 4) := by
  unfold adjust_buffer_size
  rw [if_pos hs]
  dsimp only
  rw [if_pos h]
  exact ⟨rfl, rfl, rfl, rfl, rfl,
    takeLast_isSuffix _ _, takeLast_isSuffix _ _, takeLast_isSuffix _ _,
    takeLast_isSuffix _ _, takeLast_isSuffix _ _,
    takeLast_length _ _, takeLast_length _ _, takeLast_length _ _,
    takeLast_length _ _, takeLast_length _ _⟩

/-- Claim C4, counterexample to the claim as stated: the new channel-buffer
capacity is `int(rate * 1.0 * 2)` truncated to an integer before the `max`
with 100, so at rate `401/4 = 100.25` the resize check yields capacity 200,
not `max(rate * 1.0 * 2, 100) = 200.5` as claimed. -/
theorem C4_capacity_formula_counterexample :
    ¬ (((adjust_buffer_size { initState "P" with data_rate := 401 / 4 }).b0.maxlen : ℚ) =
        max (((401 : ℚ) / 4) * 1 * 2) 100) := by
  have hdr : ({ initState "P" with data_rate := 401 / 4 } : TVState).data_rate =
      (401 / 4 : ℚ) := rfl
  have hb0m : ({ initState "P" with data_rate := 401 / 4 } : TVState).b0.maxlen =
      4096 := rfl
  have hmax : max (⌊(401 / 4 : ℚ) * 1 * 2⌋.toNat) 100 = 200 := by
    norm_num
    decide
  obtain ⟨c0, -⟩ :=
    adjust_resize_props { initState "P" with data_rate := 401 / 4 }
      (by rw [hdr]; norm_num) (by rw [hdr, hmax, hb0m]; norm_num)
  have h200 : (adjust_buffer_size
      { initState "P" with data_rate := 401 / 4 }).b0.maxlen = 200 := by
    rw [c0, hdr, hmax]
  rw [h200]
  have hm : max (((401 : ℚ) / 4) * 1 * 2) 100 = 401 / 2 := by
    rw [max_eq_left (by norm_num)]
    norm_num
  rw [hm]
  norm_num

/-- Claim C4 (amended): on each resize check with a positive rate, the new
channel-buffer capacity equals `max(int(rate * 1.0 * 2), 100)` — `rate*2`
truncated to an integer; when this differs from the current capacity all 4
channel buffers are reallocated to it and the timestamp buffer to 4 times
it, each retaining its most recent contents under ring eviction; when it
does not differ, nothing changes; rate 200 yields channel capacity 400 and
timestamp capacity 1600. -/
theorem C4_buffer_resize (st : TVState) (hrate : 0 < st.data_rate) :
    (adjust_buffer_size st).b0.maxlen = max (⌊st.data_rate * 1 * 2⌋.toNat) 100 ∧
    (max (⌊st.data_rate * 1 * 2⌋.toNat) 100 = st.b0.maxlen →
        adjust_buffer_size st = st) ∧
    (max (⌊st.data_rate * 1 * 2⌋.toNat) 100 ≠ st.b0.maxlen →
        (adjust_buffer_size st).b0.maxlen = max (⌊st.data_rate * 1 * 2⌋.toNat) 100 ∧
        (adjust_buffer_size st).b1.maxlen = max (⌊st.data_rate * 1 * 2⌋.toNat) 100 ∧
        (adjust_buffer_size st).b2.maxlen = max (⌊st.data_rate * 1 * 2⌋.toNat) 100 ∧
        (adjust_buffer_size st).b3.maxlen = max (⌊st.data_rate * 1 * 2⌋.toNat) 100 ∧
        (adjust_buffer_size st).timestamps.maxlen =
          max (⌊st.data_rate * 1 * 2⌋.toNat) 100 * 4 ∧
        (adjust_buffer_size st).b0.data <:+ st.b0.data ∧
        (adjust_buffer_size st).b1.data <:+ st.b1.data ∧
        (adjust_buffer_size st).b2.data <:+ st.b2.data ∧
        (adjust_buffer_size st).b3.data <:+ st.b3.data ∧
        (adjust_buffer_size st).timestamps.data <:+ st.timestamps.data ∧
        (adjust_buffer_size st).b0.data.length =
          min st.b0.data.length (max (⌊st.data_rate * 1 * 2⌋.toNat) 100) ∧
        (adjust_buffer_size st).b1.data.length =
          min st.b1.data.length (max (⌊st.data_rate * 1 * 2⌋.toNat) 100) ∧
        (adjust_buffer_size st).b2.data.length =
          min st.b2.data.length (max (⌊st.data_rate * 1 * 2⌋.toNat) 100) ∧
        (adjust_buffer_size st).b3.data.length =
          min st.b3.data.length (max (⌊st.data_rate * 1 * 2⌋.toNat) 100) ∧
        (adjust_buffer_size st).timestamps.data.length =
          min st.timestamps.data.length (max (⌊st.data_rate * 1 * 2⌋.toNat) 100 * 4)) ∧
    (adjust_buffer_size { initState "P" with data_rate := 200 }).b0.maxlen = 400 ∧
    (adjust_buffer_size { initState "P" with data_rate := 200 }).b1.maxlen = 400 ∧
    (adjust_buffer_size { initState "P" with data_rate := 200 }).b2.maxlen = 400 ∧
    (adjust_buffer_size { initState "P" with data_rate := 200 }).b3.maxlen = 400 ∧
    (adjust_buffer_size { initState "P" with data_rate := 200 }).timestamps.maxlen =
      1600 := by
  have hdr : ({ initState "P" with data_rate := 200 } : TVState).data_rate =
      (200 : ℚ) := rfl
  have hb0m : ({ initState "P" with data_rate := 200 } : TVState).b0.maxlen =
      4096 := rfl
  have hmax : max (⌊(200 : ℚ) * 1 * 2⌋.toNat) 100 = 400 := by
    norm_num
    decide
  obtain ⟨c0, c1, c2, c3, ct, -⟩ :=
    adjust_resize_props { initState "P" with data_rate := 200 }
      (by rw [hdr]; norm_num) (by rw [hdr, hmax, hb0m]; norm_num)
  refine ⟨?_, ?_, adjust_resize_props st hrate,
    by rw [c0, hdr, hmax], by rw [c1, hdr, hmax], by rw [c2, hdr, hmax],
    by rw [c3, hdr, hmax], by rw [ct, hdr, hmax]⟩
  · unfold adjust_buffer_size
    rw [if_pos hrate]
    dsimp only
    by_cases h : max (⌊st.data_rate * 1 * 2⌋.toNat) 100 ≠ st.b0.maxlen
    · rw [if_pos h]
      rfl
    · rw [if_neg h]
      push_neg at h
      exact h.symm
  · intro h
    unfold adjust_buffer_size
    rw [if_pos hrate]
    dsimp only
    rw [if_neg (by omega)]

theorem C4_buffer_resize_witness :
    (0 : ℚ) < ({ initState "P" with data_rate := 200 } : TVState).data_rate ∧
    (adjust_buffer_size { initState "P" with data_rate := 200 }).b0.maxlen =
      max (⌊(({ initState "P" with data_rate := 200 } : TVState).data_rate :
        ℚ) * 1 * 2⌋.toNat) 100 :=
  ⟨by norm_num [initState], (C4_buffer_resize _ (by norm_num [initState])).1⟩

/-- For a non-empty all-finite value set, the tick loop of
`generate_y_ticks` produces exactly the arithmetic progression described by
the specification. -/
theorem generate_y_ticks_eq_claim (values : List (Option ℚ)) (hne : values ≠ [])
    (hall : values.all Option.isSome = true) :
    generate_y_ticks values = claimYTicks values.reduceOption := by
  have hguard : ¬ ((values.isEmpty || !values.all Option.isSome) = true) := by
    rw [hall]
    cases values with
    | nil => exact absurd rfl hne
    | cons a l => simp
  unfold generate_y_ticks
  rw [if_neg hguard]
  cases hnums : values.reduceOption with
  | nil => rfl
  | cons v vs =>
      dsimp only [claimYTicks]
      exact tickLoop_eq_range _ _ _ _ _ rfl

theorem claimYTicks_degenerate_ten : claimYTicks [10, 10] = [9, 10, 11] := by
  have h1 : ([10] : List ℚ).foldl max 10 = 10 := by simp
  have h2 : ([10] : List ℚ).foldl min 10 = 10 := by simp
  dsimp only [claimYTicks]
  rw [h1, h2]
  norm_num [max_def]
  rw [show Int.toNat 3 = 3 from rfl]
  norm_num [List.range_succ]

/-- Claim C8: tick generation on a non-empty all-finite value set equals the
claimed enumeration (padded min/max, step `max(range/10, 1)` rounded up to
the nearest 0.5, ticks from `floor(y_min/step)*step` upward while
`≤ y_max`); on `[10, 10]` this yields y-range `(9, 11)` and ticks
`[9, 10, 11]`; on an empty or non-finite value set the default ticks
`[0, 10, …, 90]` and the fixed y-range `(0, 100)` are used. -/
theorem C8_tick_generation (values : List (Option ℚ)) :
    (values ≠ [] → values.all Option.isSome = true →
        generate_y_ticks values = claimYTicks values.reduceOption) ∧
    ((values.isEmpty || !values.all Option.isSome) = true →
        generate_y_ticks values = default_ticks ∧
        window_y_range values = (0, 100)) ∧
    default_ticks = [0, 10, 20, 30, 40, 50, 60, 70, 80, 90] ∧
    generate_y_ticks [some 10, some 10] = [9, 10, 11] ∧
    window_y_range [some 10, some 10] = (9, 11) := by
  refine ⟨generate_y_ticks_eq_claim values, ?_, ?_, ?_, ?_⟩
  · intro hguard
    constructor
    · unfold generate_y_ticks
      rw [if_pos hguard]
    · unfold window_y_range
      rw [if_pos hguard]
  · norm_num [default_ticks, List.range_succ]
  · rw [generate_y_ticks_eq_claim [some 10, some 10] (by decide) (by decide),
      show ([some 10, some 10] : List (Option ℚ)).reduceOption = [10, 10] from rfl,
      claimYTicks_degenerate_ten]
  · unfold window_y_range
    rw [if_neg (by decide)]
    rw [show ([some 10, some 10] : List (Option ℚ)).reduceOption = [10, 10] from rfl]
    dsimp only
    rw [show ([10] : List ℚ).foldl max 10 = 10 from by simp,
      show ([10] : List ℚ).foldl min 10 = 10 from by simp]
    norm_num

theorem C8_tick_generation_witness :
    generate_y_ticks [some 10, some 10] =
      claimYTicks (([some 10, some 10] : List (Option ℚ)).reduceOption) :=
  (C8_tick_generation [some 10, some 10]).1 (by decide) (by decide)

/-- Claim C9: per invocation the connection routine attempts to connect at
most 3 times with a 5-second sleep between consecutive attempts and none
after the last, stops immediately with a `connected` emission on the first
success, and emits `connection_failed` exactly once after the third
consecutive failure, making no further attempt. -/
theorem C9_connect_retry (outcomes : Nat → Bool) :
    (connect_with_retry outcomes true).count .connectAttempt ≤ 3 ∧
    (connect_with_retry outcomes true).count .connectionFailedEmit ≤ 1 ∧
    (outcomes 0 = true →
        connect_with_retry outcomes true = [.connectAttempt, .connectedEmit]) ∧
    (outcomes 0 = false → outcomes 1 = true →
        connect_with_retry outcomes true =
          [.connectAttempt, .sleepSecs 5, .connectAttempt, .connectedEmit]) ∧
    (outcomes 0 = false → outcomes 1 = false → outcomes 2 = true →
        connect_with_retry outcomes true =
          [.connectAttempt, .sleepSecs 5, .connectAttempt, .sleepSecs 5,
            .connectAttempt, .connectedEmit]) ∧
    (outcomes 0 = false → outcomes 1 = false → outcomes 2 = false →
        connect_with_retry outcomes true =
          [.connectAttempt, .sleepSecs 5, .connectAttempt, .sleepSecs 5,
            .connectAttempt, .connectionFailedEmit]) := by
  cases h0 : outcomes 0 <;> cases h1 : outcomes 1 <;> cases h2 : outcomes 2 <;>
    refine ⟨?_, ?_, ?_, ?_, ?_, ?_⟩ <;>
    simp_all [connect_with_retry, connectLoop, max_retries, retry_interval,
      List.count_cons]

theorem C9_connect_retry_witness :
    ((fun _ : Nat => false) 0 = false) ∧
    connect_with_retry (fun _ => false) true =
      [.connectAttempt, .sleepSecs 5, .connectAttempt, .sleepSecs 5,
        .connectAttempt, .connectionFailedEmit] :=
  ⟨rfl, (C9_connect_retry (fun _ => false)).2.2.2.2.2 rfl rfl rfl⟩

end DataSaving
